import Mathlib

/-!
Verification development for the BTC accumulation bot (`btc_bot.py`).

Floating point numbers of the source are modelled as rationals (`ℚ`); the
Fear & Greed index, which the source parses with `int(...)`, is modelled
as `ℤ`.  Strings that only serve as human-readable labels are kept as the
distinctive part of the source's signal strings.
-/

/-- Bot configuration: `BASE_WEEKLY_AMOUNT`, `MAX_WEEKLY_AMOUNT`,
`MIN_WEEKLY_AMOUNT` from `Config`. -/
structure BotConfig where
  baseWeekly : ℚ
  maxWeekly : ℚ
  minWeekly : ℚ
deriving Repr, DecidableEq

/-- The multiplier/signal selection of
`BTCAccumulationBot.calculate_buy_amount`: the chain of
`if mayer < 0.8 and fear_greed < 25: ... elif ... else ...`
as written in the source, returning the multiplier and the signal label. -/
def select_multiplier (mayer : ℚ) (fear_greed : ℤ) : ℚ × String :=
  if mayer < 8/10 ∧ fear_greed < 25 then (4, "PERFECT STORM")
  else if mayer < 8/10 ∧ fear_greed < 35 then (7/2, "EXTREME OVERSOLD + FEAR")
  else if mayer < 8/10 then (3, "EXTREME OVERSOLD")
  else if mayer < 1 ∧ fear_greed < 30 then (5/2, "UNDERSOLD + FEAR")
  else if mayer < 1 then (9/5, "UNDERSOLD")
  else if mayer < 6/5 ∧ fear_greed < 40 then (6/5, "FAIR VALUE + FEAR")
  else if mayer > 12/5 then (0, "EXTREME BUBBLE")
  else if mayer > 8/5 then (1/5, "OVERBOUGHT")
  else (1, "FAIR VALUE")

/-- `BTCAccumulationBot.calculate_buy_amount`, given the already computed
Mayer multiple and Fear & Greed index:
`final_amount = base_amount * multiplier` followed by
`final_amount = max(min(final_amount, MAX_WEEKLY_AMOUNT),
                    MIN_WEEKLY_AMOUNT if multiplier > 0 else 0)`. -/
def calculate_buy_amount (cfg : BotConfig) (mayer : ℚ) (fear_greed : ℤ) :
    ℚ × String :=
  let ms := select_multiplier mayer fear_greed
  let final_amount := cfg.baseWeekly * ms.1
  let final_amount :=
    max (min final_amount cfg.maxWeekly) (if ms.1 > 0 then cfg.minWeekly else 0)
  (final_amount, ms.2)

/-- A sizing rule of the spec's §4.4 table: a condition on (ratio,
sentiment), a multiplier and a label. -/
structure SizingRule where
  cond : ℚ → ℤ → Bool
  mult : ℚ
  label : String

/-- The §4.4 rule table as the spec writes it (first eight rows; the
`else` row is the default of `spec_first_match`). -/
def spec_rule_table : List SizingRule :=
  [ ⟨fun r s => decide (r < 8/10) && decide (s < 25), 4, "PERFECT STORM"⟩,
    ⟨fun r s => decide (r < 8/10) && decide (s < 35), 7/2, "EXTREME OVERSOLD + FEAR"⟩,
    ⟨fun r _ => decide (r < 8/10), 3, "EXTREME OVERSOLD"⟩,
    ⟨fun r s => decide (r < 1) && decide (s < 30), 5/2, "UNDERSOLD + FEAR"⟩,
    ⟨fun r _ => decide (r < 1), 9/5, "UNDERSOLD"⟩,
    ⟨fun r s => decide (r < 6/5) && decide (s < 40), 6/5, "FAIR VALUE + FEAR"⟩,
    ⟨fun r _ => decide (r > 12/5), 0, "EXTREME BUBBLE"⟩,
    ⟨fun r _ => decide (r > 8/5), 1/5, "OVERBOUGHT"⟩ ]

/-- First-match evaluation of an ordered rule list, as the spec's words
describe it ("Ordered rule list, first match wins"); the default row is
multiplier 1.0, fair-value. -/
def spec_first_match : List SizingRule → ℚ → ℤ → ℚ × String
  | [], _, _ => (1, "FAIR VALUE")
  | rule :: rest, r, s =>
    if rule.cond r s then (rule.mult, rule.label) else spec_first_match rest r s

/-- Value of a base64 alphabet character (`A`-`Z`, `a`-`z`, `0`-`9`, `+`,
`/`); `none` for every other character. -/
def b64CharVal (c : Char) : Option ℕ :=
  if 'A' ≤ c ∧ c ≤ 'Z' then some (c.toNat - 65)
  else if 'a' ≤ c ∧ c ≤ 'z' then some (c.toNat - 97 + 26)
  else if '0' ≤ c ∧ c ≤ '9' then some (c.toNat - 48 + 52)
  else if c = '+' then some 62
  else if c = '/' then some 63
  else none

/-- Groups of four 6-bit values to three 8-bit bytes; a trailing group of
two or three values yields one or two bytes. -/
def sextetsToBytes : List ℕ → List ℕ
  | a :: b :: c :: d :: rest =>
    (a * 4 + b / 16) :: ((b % 16) * 16 + c / 4) :: ((c % 4) * 64 + d) ::
      sextetsToBytes rest
  | [a, b] => [a * 4 + b / 16]
  | [a, b, c] => [a * 4 + b / 16, (b % 16) * 16 + c / 4]
  | _ => []

/-- Model of Python `base64.b64decode` (with its default
`validate=False`): characters outside the alphabet and `=` are discarded;
the remaining length must be a multiple of 4 counting padding, else a
binascii `Incorrect padding` error is raised; one data character more
than a multiple of 4 is likewise an error. -/
def b64decode (s : String) : Except String (List ℕ) :=
  let kept := s.data.filter (fun c => (b64CharVal c).isSome || c == '=')
  if kept.length % 4 ≠ 0 then .error "Incorrect padding"
  else
    let data := kept.takeWhile (fun c => c != '=')
    let sextets := data.filterMap b64CharVal
    if sextets.length % 4 = 1 then .error "Invalid base64-encoded string"
    else .ok (sextetsToBytes sextets)

/-- The state a `BTCMarketsClient` holds after `__init__`: the API key and
the base64-decoded private key. -/
structure BTCMarketsClient where
  api_key : String
  private_key : List ℕ
deriving Repr, DecidableEq

/-- `BTCMarketsClient.__init__`: stores the API key and decodes the
secret with `base64.b64decode`; a decode error propagates out of the
constructor (modelled as `Except`). -/
def mkClient (api_key private_key : String) : Except String BTCMarketsClient :=
  (b64decode private_key).map (fun pk => ⟨api_key, pk⟩)

/-- UTF-8 bytes of a string (`message.encode('utf-8')`). -/
def strBytes (s : String) : List ℕ :=
  s.toUTF8.toList.map (fun b => b.toNat)

/-- `BTCMarketsClient.__sign_message`: Base64 of the HMAC-SHA512 digest of
the UTF-8 message, keyed by the decoded private key.  The primitives
`hmacSha512` and `b64encode` are abstract parameters of the model. -/
def sign_message (hmacSha512 : List ℕ → List ℕ → List ℕ)
    (b64encode : List ℕ → String) (private_key : List ℕ) (message : String) :
    String :=
  b64encode (hmacSha512 private_key (strBytes message))

/-- The authentication headers `___build_headers` produces (the three
fields the claims are about). -/
structure AuthHeaders where
  apikey : String
  timestamp : String
  signature : String
deriving Repr, DecidableEq

/-- `BTCMarketsClient.___build_headers`: `now = str(int(time.time()*1000))`
is generated once (modelled by the `timeMs` argument, the millisecond
clock reading of this call); the message is `method + path + now` with
the serialized body appended verbatim when present, and the same `now`
string is placed in `BM-AUTH-TIMESTAMP`. -/
def build_headers (hmacSha512 : List ℕ → List ℕ → List ℕ)
    (b64encode : List ℕ → String) (api_key : String) (private_key : List ℕ)
    (timeMs : ℕ) (method path : String) (data : Option String) : AuthHeaders :=
  let now := toString timeMs
  let message := method ++ path ++ now
  let message := match data with
    | none => message
    | some d => message ++ d
  ⟨api_key, now, sign_message hmacSha512 b64encode private_key message⟩

/-- JSON values, as handled by `json.loads` / `json.dumps`. -/
inductive Json where
  | null : Json
  | bool (b : Bool) : Json
  | num (q : ℚ) : Json
  | str (s : String) : Json
  | arr (elems : List Json) : Json
  | obj (fields : List (String × Json)) : Json
deriving Repr

/-- JSON string escaping for the two characters the claims' payloads can
contain specially: backslash and double quote. -/
def jsonEscape (s : String) : String :=
  s.data.foldl (fun acc c =>
    if c = '\\' then acc ++ "\\\\"
    else if c = '"' then acc ++ "\\\""
    else acc.push c) ""

/-- A JSON string literal: quoted and escaped. -/
def jsonQuote (s : String) : String := "\"" ++ jsonEscape s ++ "\""

/-- Serialization of a number as `json.dumps` prints it (integers without
a fractional part). -/
def jsonNum (q : ℚ) : String :=
  if q.den = 1 then toString q.num else toString q

mutual

/-- `json.dumps(·, separators=(',', ':'))`: compact JSON with no
whitespace, exactly as `__make_http_call` serializes a request body. -/
def dumps : Json → String
  | .null => "null"
  | .bool true => "true"
  | .bool false => "false"
  | .num q => jsonNum q
  | .str s => jsonQuote s
  | .arr xs => "[" ++ dumpsElems xs ++ "]"
  | .obj fs => "\x7b" ++ dumpsFields fs ++ "\x7d"

/-- Comma-separated serialization of array elements. -/
def dumpsElems : List Json → String
  | [] => ""
  | [x] => dumps x
  | x :: y :: rest => dumps x ++ "," ++ dumpsElems (y :: rest)

/-- Comma-separated serialization of object fields, `"key":value`. -/
def dumpsFields : List (String × Json) → String
  | [] => ""
  | [(k, v)] => jsonQuote k ++ ":" ++ dumps v
  | (k, v) :: f :: rest => jsonQuote k ++ ":" ++ dumps v ++ "," ++ dumpsFields (f :: rest)

end

/-- Headers of a `__make_http_call` invocation: the body, when present,
is serialized as compact JSON before `___build_headers` runs. -/
def make_http_call_headers (hmacSha512 : List ℕ → List ℕ → List ℕ)
    (b64encode : List ℕ → String) (c : BTCMarketsClient) (timeMs : ℕ)
    (method path : String) (payload : Option Json) : AuthHeaders :=
  build_headers hmacSha512 b64encode c.api_key c.private_key timeMs method path
    (payload.map dumps)

/-- Python dict item assignment `d[k] = v`: overwrite an existing key in
place, else append. -/
def assocSet {β : Type} : List (String × β) → String → β → List (String × β)
  | [], k, v => [(k, v)]
  | (k', v') :: rest, k, v =>
    if k' = k then (k, v) :: rest else (k', v') :: assocSet rest k v

/-- Key lookup in a JSON object; `none` on non-objects or missing keys. -/
def jsonLookup (j : Json) (k : String) : Option Json :=
  match j with
  | .obj fs => fs.lookup k
  | _ => none

/-- The transport-level outcomes of the `try` body of `__make_http_call`:
a decoded success body, an `HTTPError` (whose error body may decode to
JSON or not), a `URLError`, or any other exception. -/
inductive HttpOutcome where
  | success (body : Json)
  | httpError (code : ℕ) (errBody : Option Json) (reason : String)
  | urlError (reason : String)
  | unexpected (msg : String)

/-- `HTTPError` handler detail: `error_data['statusCode'] = e.code`
succeeds only when the decoded body is an object (item assignment on a
non-object raises, landing in the bare `except` fallback). -/
def setStatusCode (j : Json) (code : ℕ) : Option Json :=
  match j with
  | .obj fs => some (.obj (assocSet fs "statusCode" (.num code)))
  | _ => none

/-- The error-shaped fallback dict
`{'error': f'HTTP {e.code}: {e.reason}', 'statusCode': e.code}`. -/
def httpErrorFallback (code : ℕ) (reason : String) : Json :=
  .obj [("error", .str ("HTTP " ++ toString code ++ ": " ++ reason)),
        ("statusCode", .num code)]

/-- `BTCMarketsClient.__make_http_call`'s value for each transport
outcome: the decoded body on success; on `HTTPError` the decoded error
body augmented with `statusCode` (or the fallback dict when the body
cannot be decoded or is not an object); on `URLError` or any unexpected
exception, an object with a descriptive `error` message.  Every outcome
returns a value; no exception escapes. -/
def make_http_call (outcome : HttpOutcome) : Json :=
  match outcome with
  | .success body => body
  | .httpError code errBody reason =>
    match errBody with
    | some j =>
      match setStatusCode j code with
      | some j' => j'
      | none => httpErrorFallback code reason
    | none => httpErrorFallback code reason
  | .urlError reason => .obj [("error", .str ("Network error: " ++ reason))]
  | .unexpected msg => .obj [("error", .str ("Unexpected error: " ++ msg))]

/-- A daily candle tuple `(timestamp, open, high, low, close, volume)`;
the close is the entry at index 4, as `candle[4]` reads it. -/
def Candle : Type := Fin 6 → ℚ

/-- What `get_candles` handed to `get_mayer_multiple`: either an
error-shaped response (the `'error' in candles or 'statusCode' in
candles` check fires and the method raises) or the decoded candle list,
newest first as the feed returns it. -/
inductive CandlesResp where
  | errorShaped (e : Json)
  | data (candles : List Candle)

/-- `BTCAccumulationBot.get_mayer_multiple`, with the already fetched
candles response and current price as inputs: reverse the newest-first
candles, extract `candle[4]`, require at least 50 points, average the
last `min(200, len(prices))` closes and divide the current price by that
average.  The `raise` paths are the `Except.error` cases. -/
def get_mayer_multiple (resp : CandlesResp) (current_price : ℚ) :
    Except String ℚ :=
  match resp with
  | .errorShaped _ => .error "Candles API Error"
  | .data candles =>
    if candles.length = 0 then .error "No candle data received"
    else
      let prices := candles.reverse.map (fun c => c 4)
      if prices.length < 50 then
        .error ("Insufficient price data: only " ++ toString prices.length ++
          " days available")
      else
        let ma_period := min 200 prices.length
        let ma_200 := (prices.drop (prices.length - ma_period)).sum / ma_period
        .ok (current_price / ma_200)

/-- Outcome of the Fear & Greed fetch-and-parse in
`get_fear_greed_index`'s `try` body: a parsed integer, or one of the
exception classes its handlers catch. -/
inductive FngOutcome where
  | success (value : ℤ)
  | timeout
  | requestError (msg : String)
  | parseError (msg : String)
  | unexpected (msg : String)

/-- `BTCAccumulationBot.get_fear_greed_index`: the parsed value on
success; every handled failure returns the neutral value 50. -/
def get_fear_greed_index : FngOutcome → ℤ
  | .success v => v
  | .timeout => 50
  | .requestError _ => 50
  | .parseError _ => 50
  | .unexpected _ => 50

/-- An amount value in a balance entry: a numeric string `float(...)`
accepts, or a malformed one it rejects with `ValueError`/`TypeError`. -/
inductive Amount where
  | parsable (q : ℚ)
  | malformed
deriving Repr, DecidableEq

/-- The numeric value recorded for an amount: the parsed number, or 0.0
for a malformed amount (the `except (ValueError, TypeError)` branch). -/
def amountVal : Amount → ℚ
  | .parsable q => q
  | .malformed => 0

/-- One decoded balance object as `get_account_balance` reads it.  Each
field models a Python `dict.get`: the outer `Option` is key presence,
the inner `Option` (for amounts) distinguishes a JSON `null` value from
an amount. -/
structure BalanceEntry where
  assetName : Option String
  available : Option (Option Amount)
  balance : Option (Option Amount)

/-- An element of the balances array: a dict, or something else (skipped
with a warning by the `isinstance` check). -/
inductive BalanceItem where
  | dict (e : BalanceEntry)
  | nonDict

/-- `balance.get('available', balance.get('balance', '0'))`: the
`available` value when the key is present (even if null), else the
`balance` value, else the default string `'0'` (which parses to 0). -/
def effectiveAmount (e : BalanceEntry) : Option Amount :=
  e.available.getD (e.balance.getD (some (.parsable 0)))

/-- Python truthiness of the fetched asset name: `None` and the empty
string are falsy. -/
def truthyName : Option String → Option String
  | some a => if a = "" then none else some a
  | none => none

/-- The `for balance in balances` loop of `get_account_balance`:
non-dicts are skipped; an entry with a truthy asset name and a non-null
effective amount records the parsed value (0.0 when parsing fails) into
the dict; other entries are skipped with a warning.  Processing always
continues with the remaining items. -/
def parseBalances : List BalanceItem → List (String × ℚ) → List (String × ℚ)
  | [], acc => acc
  | .nonDict :: rest, acc => parseBalances rest acc
  | .dict e :: rest, acc =>
    match truthyName e.assetName, effectiveAmount e with
    | some a, some amt => parseBalances rest (assocSet acc a (amountVal amt))
    | _, _ => parseBalances rest acc

/-- What `get_account_balances` handed to `get_account_balance`: an
error-shaped response (the raise-then-catch path), a decoded value that
is not a list, some other exception inside the `try`, or the balances
array. -/
inductive BalancesResp where
  | errorShaped
  | nonList
  | exception
  | items (xs : List BalanceItem)

/-- `BTCAccumulationBot.get_account_balance`: an error-shaped response
raises and is caught by the method's own handler (returning `{}`), a
non-list response returns `{}`, any other exception returns `{}`;
otherwise the items are folded into a dict. -/
def get_account_balance : BalancesResp → List (String × ℚ)
  | .errorShaped => []
  | .nonList => []
  | .exception => []
  | .items xs => parseBalances xs []

/-- `True` when `'error' in j or 'statusCode' in j` for an object. -/
def hasErrorShape (j : Json) : Bool :=
  (jsonLookup j "error").isSome || (jsonLookup j "statusCode").isSome

/-- Result values of `execute_buy_order`; every constructor except
`placed` is a `{'success': False, 'reason': ...}` dict in the source. -/
inductive BuyResult where
  | belowMinimum
  | insufficientBalance (aud : ℚ)
  | orderFailed (resp : Json)
  | placed (btc_amount aud_amount price : ℚ)
  | executionError (msg : String)

/-- `BTCAccumulationBot.execute_buy_order`: reject below the configured
minimum; fetch balances and reject when the AUD balance (0 when absent)
is below the requested amount; a raising price fetch lands in the
`except` as a failure value; an error-shaped order response is a
failure; otherwise the market order for `amount_aud / current_price` BTC
is placed. -/
def execute_buy_order (minWeekly : ℚ) (amount_aud : ℚ)
    (balResp : BalancesResp) (priceResp : Except String ℚ)
    (orderResp : Json) : BuyResult :=
  if amount_aud < minWeekly then .belowMinimum
  else
    let balances := get_account_balance balResp
    let aud_balance := (balances.lookup "AUD").getD 0
    if aud_balance < amount_aud then .insufficientBalance aud_balance
    else
      match priceResp with
      | .error e => .executionError e
      | .ok current_price =>
        if hasErrorShape orderResp then .orderFailed orderResp
        else .placed (amount_aud / current_price) amount_aud current_price

/-- C1: `calculate_buy_amount` selects multiplier and label by first match
over the ordered §4.4 rule list; in particular R = 0.75, S = 20 yields
multiplier 4.0 (perfect storm), never 3.0 (extreme oversold). -/
theorem calculate_buy_amount_first_match :
    (∀ (R : ℚ) (S : ℤ),
      select_multiplier R S = spec_first_match spec_rule_table R S) ∧
    select_multiplier (3/4) 20 = (4, "PERFECT STORM") ∧
    (select_multiplier (3/4) 20).1 ≠ 3 := by
  refine ⟨fun R S => ?_, by norm_num [select_multiplier], by norm_num [select_multiplier]⟩
  simp only [select_multiplier, spec_first_match, spec_rule_table,
    Bool.and_eq_true, decide_eq_true_eq]

/-- C2: with 0 ≤ min ≤ max, a matched multiplier of 0 yields amount 0
regardless of min, and a positive matched multiplier yields
base × multiplier clamped into [min, max]; in particular, with base = 500,
min = 100, max = 2000: (R=0.5, S=10) yields 2000, (R=1.1, S=50) yields 500,
(R=2.5, any S) yields 0, (R=1.7, any S) yields 100. -/
theorem calculate_buy_amount_clamped :
    (∀ (cfg : BotConfig) (R : ℚ) (S : ℤ),
      0 ≤ cfg.minWeekly → cfg.minWeekly ≤ cfg.maxWeekly →
      ((select_multiplier R S).1 = 0 → (calculate_buy_amount cfg R S).1 = 0) ∧
      (0 < (select_multiplier R S).1 →
        (calculate_buy_amount cfg R S).1 =
          max (min (cfg.baseWeekly * (select_multiplier R S).1) cfg.maxWeekly)
            cfg.minWeekly ∧
        cfg.minWeekly ≤ (calculate_buy_amount cfg R S).1 ∧
        (calculate_buy_amount cfg R S).1 ≤ cfg.maxWeekly)) ∧
    (calculate_buy_amount ⟨500, 2000, 100⟩ (1/2) 10).1 = 2000 ∧
    (calculate_buy_amount ⟨500, 2000, 100⟩ (11/10) 50).1 = 500 ∧
    (∀ S : ℤ, (calculate_buy_amount ⟨500, 2000, 100⟩ (5/2) S).1 = 0) ∧
    (∀ S : ℤ, (calculate_buy_amount ⟨500, 2000, 100⟩ (17/10) S).1 = 100) := by
  refine ⟨fun cfg R S hmin hmm => ⟨?_, ?_⟩,
    by norm_num [calculate_buy_amount, select_multiplier],
    by norm_num [calculate_buy_amount, select_multiplier], fun S => ?_, fun S => ?_⟩
  · intro h0
    simp only [calculate_buy_amount, h0, mul_zero, lt_irrefl, if_neg, gt_iff_lt]
    have hmax : (0:ℚ) ≤ cfg.maxWeekly := le_trans hmin hmm
    simp [min_eq_left hmax, gt_iff_lt]
  · intro hpos
    have hif : ((if (select_multiplier R S).1 > 0 then cfg.minWeekly else 0) = cfg.minWeekly) := by
      simp [hpos]
    refine ⟨?_, ?_, ?_⟩
    · simp only [calculate_buy_amount, hif]
    · simp only [calculate_buy_amount, hif]
      exact le_max_right _ _
    · simp only [calculate_buy_amount, hif]
      exact max_le (min_le_right _ _) hmm
  · by_cases h25 : S < 25 <;> by_cases h30 : S < 30 <;> by_cases h35 : S < 35 <;>
      by_cases h40 : S < 40 <;>
      norm_num [calculate_buy_amount, select_multiplier, h25, h30, h35, h40]
  · by_cases h25 : S < 25 <;> by_cases h30 : S < 30 <;> by_cases h35 : S < 35 <;>
      by_cases h40 : S < 40 <;>
      norm_num [calculate_buy_amount, select_multiplier, h25, h30, h35, h40]

/-- Witness for C2 at the spec's concrete configuration
base = 500, min = 100, max = 2000 and R = 0.5, S = 10. -/
theorem calculate_buy_amount_clamped_witness :
    (0:ℚ) ≤ 100 ∧ (100:ℚ) ≤ 2000 ∧
    (0 < (select_multiplier (1/2) 10).1 →
      (calculate_buy_amount ⟨500, 2000, 100⟩ (1/2) 10).1 =
        max (min (500 * (select_multiplier (1/2) 10).1) 2000) 100 ∧
      (100:ℚ) ≤ (calculate_buy_amount ⟨500, 2000, 100⟩ (1/2) 10).1 ∧
      (calculate_buy_amount ⟨500, 2000, 100⟩ (1/2) 10).1 ≤ 2000) :=
  ⟨by norm_num, by norm_num,
    (calculate_buy_amount_clamped.1 ⟨500, 2000, 100⟩ (1/2) 10
      (by norm_num) (by norm_num)).2⟩

/-- C3: the transmitted signature is the Base64 of the HMAC-SHA512 digest,
keyed by the base64-decoded secret, of `method + path + timestamp` with the
compact-JSON body appended verbatim when present; the one millisecond
timestamp string of the call is used identically in the signed message and
in the `BM-AUTH-TIMESTAMP` header. -/
theorem request_signing (hm : List ℕ → List ℕ → List ℕ)
    (b64e : List ℕ → String) (k secret : String) (c : BTCMarketsClient)
    (hc : mkClient k secret = .ok c) (timeMs : ℕ) (method path : String)
    (payload : Option Json) :
    (make_http_call_headers hm b64e c timeMs method path payload).signature =
      b64e (hm c.private_key (strBytes
        (method ++ path ++ toString timeMs ++ (payload.map dumps).getD ""))) ∧
    (make_http_call_headers hm b64e c timeMs method path payload).timestamp =
      toString timeMs ∧
    b64decode secret = .ok c.private_key := by
  refine ⟨?_, rfl, ?_⟩
  · cases payload with
    | none =>
      simp only [make_http_call_headers, build_headers, sign_message,
        Option.map_none', Option.getD_none, String.append_empty]
    | some p => rfl
  · unfold mkClient at hc
    cases hb : b64decode secret with
    | error e =>
      rw [hb] at hc
      exact absurd hc (by simp [Except.map])
    | ok pk =>
      rw [hb] at hc
      simp only [Except.map] at hc
      cases hc
      rfl

/-- Witness for C3: a concrete client built from the valid base64 secret
"QUJD" (decoding to bytes 65 66 67), with concrete primitives, a concrete
timestamp and no body. -/
theorem request_signing_witness :
    mkClient "APIKEY" "QUJD" = Except.ok ⟨"APIKEY", [65, 66, 67]⟩ ∧
    ((make_http_call_headers (fun _ _ => []) (fun _ => "SIG")
        ⟨"APIKEY", [65, 66, 67]⟩ 1700000000000 "GET" "/v3/orders" none).signature =
          "SIG" ∧
      (make_http_call_headers (fun _ _ => []) (fun _ => "SIG")
        ⟨"APIKEY", [65, 66, 67]⟩ 1700000000000 "GET" "/v3/orders" none).timestamp =
          "1700000000000" ∧
      b64decode "QUJD" = Except.ok [65, 66, 67]) :=
  ⟨rfl, request_signing (fun _ _ => []) (fun _ => "SIG") "APIKEY" "QUJD"
    ⟨"APIKEY", [65, 66, 67]⟩ rfl 1700000000000 "GET" "/v3/orders" none⟩

/-- Looking up the key just set by `assocSet` yields the value set. -/
theorem List_lookup_assocSet (fs : List (String × Json)) (k : String) (v : Json) :
    (assocSet fs k v).lookup k = some v := by
  induction fs with
  | nil => simp [assocSet, List.lookup]
  | cons p rest ih =>
    obtain ⟨k', v'⟩ := p
    by_cases h : k' = k
    · simp [assocSet, h, List.lookup]
    · have hne : (k == k') = false := beq_eq_false_iff_ne.mpr (Ne.symm h)
      simp only [assocSet, if_neg h, List.lookup, hne, ih]

/-- C4: every failure mode of `__make_http_call` returns a value: an HTTP
error with a decodable JSON object body returns that object with the
numeric status code set under `statusCode`; an HTTP error whose body is
not a decodable object returns the `error`/`statusCode` fallback object;
a network failure or unexpected exception returns an object with a
descriptive `error` message. -/
theorem make_http_call_errors_as_values :
    (∀ (code : ℕ) (fs : List (String × Json)) (reason : String),
      make_http_call (.httpError code (some (.obj fs)) reason) =
        .obj (assocSet fs "statusCode" (.num code)) ∧
      jsonLookup (make_http_call (.httpError code (some (.obj fs)) reason))
        "statusCode" = some (.num code)) ∧
    (∀ (code : ℕ) (reason : String) (j : Json), setStatusCode j code = none →
      make_http_call (.httpError code (some j) reason) =
        httpErrorFallback code reason) ∧
    (∀ (code : ℕ) (reason : String),
      make_http_call (.httpError code none reason) =
        httpErrorFallback code reason) ∧
    (∀ (code : ℕ) (reason : String),
      jsonLookup (httpErrorFallback code reason) "statusCode" =
        some (.num code) ∧
      jsonLookup (httpErrorFallback code reason) "error" =
        some (.str ("HTTP " ++ toString code ++ ": " ++ reason))) ∧
    (∀ reason : String, make_http_call (.urlError reason) =
      .obj [("error", .str ("Network error: " ++ reason))]) ∧
    (∀ msg : String, make_http_call (.unexpected msg) =
      .obj [("error", .str ("Unexpected error: " ++ msg))]) := by
  refine ⟨fun code fs reason => ⟨rfl, ?_⟩, fun code reason j hj => ?_,
    fun code reason => rfl, fun code reason => ⟨?_, ?_⟩,
    fun reason => rfl, fun msg => rfl⟩
  · simpa [make_http_call, setStatusCode, jsonLookup] using
      List_lookup_assocSet fs "statusCode" (.num code)
  · simp [make_http_call, hj]
  · simp [httpErrorFallback, jsonLookup, List.lookup]
  · simp [httpErrorFallback, jsonLookup, List.lookup]

/-- Witness for C4: a simulated HTTP 400 whose body decodes to a JSON
array (not an object) lands in the fallback error object. -/
theorem make_http_call_errors_as_values_witness :
    setStatusCode (.arr []) 400 = none ∧
    make_http_call (.httpError 400 (some (.arr [])) "Bad Request") =
      httpErrorFallback 400 "Bad Request" :=
  ⟨rfl, make_http_call_errors_as_values.2.1 400 "Bad Request" (.arr []) rfl⟩

/-- C8: a secret that fails base64 decoding makes the constructor fail
with that very error (fail fast: the decode happens in `__init__`), and a
successfully constructed client's signing is the total pure composition
of HMAC-SHA512 and Base64 — it has no internal failure mode. -/
theorem client_construction_fail_fast (k s : String) :
    (∀ e, b64decode s = .error e → mkClient k s = .error e) ∧
    (∀ pk, b64decode s = .ok pk →
      mkClient k s = .ok ⟨k, pk⟩ ∧
      ∀ (hm : List ℕ → List ℕ → List ℕ) (b64e : List ℕ → String)
        (msg : String),
        sign_message hm b64e pk msg = b64e (hm pk (strBytes msg))) := by
  constructor
  · intro e he
    simp [mkClient, he, Except.map]
  · intro pk hpk
    exact ⟨by simp [mkClient, hpk, Except.map], fun _ _ _ => rfl⟩

/-- Witness for C8: "QQ" is not valid base64 (incorrect padding), and the
constructor fails with exactly that error. -/
theorem client_construction_fail_fast_witness :
    b64decode "QQ" = Except.error "Incorrect padding" ∧
    mkClient "APIKEY" "QQ" = Except.error "Incorrect padding" :=
  ⟨rfl, (client_construction_fail_fast "APIKEY" "QQ").1 "Incorrect padding" rfl⟩

/-- Summing the last `p` elements of a reversed list equals summing the
first `p` elements of the original list. -/
theorem sum_drop_reverse (L : List ℚ) (n p : ℕ) (hn : L.length = n) :
    (L.reverse.drop (n - p)).sum = (L.take p).sum := by
  subst hn
  rw [← List.reverse_take]
  exact List.sum_reverse _

/-- C5: `get_mayer_multiple` fails on an error-shaped candles response,
fails whenever fewer than 50 closes are available (with the insufficient
data message once any candle exists), and otherwise returns the current
price divided by the unweighted mean of the most recent
`min(200, count)` closes (`candle[4]`, newest first). -/
theorem mayer_multiple_reversal :
    (∀ (e : Json) (price : ℚ),
      ∃ msg, get_mayer_multiple (.errorShaped e) price = .error msg) ∧
    (∀ (candles : List Candle) (price : ℚ),
      (candles.length < 50 →
        ∃ msg, get_mayer_multiple (.data candles) price = .error msg) ∧
      (0 < candles.length → candles.length < 50 →
        get_mayer_multiple (.data candles) price =
          .error ("Insufficient price data: only " ++
            toString candles.length ++ " days available")) ∧
      (50 ≤ candles.length →
        get_mayer_multiple (.data candles) price =
          .ok (price /
            (((candles.take (min 200 candles.length)).map (fun c => c 4)).sum /
              ((min 200 candles.length : ℕ) : ℚ))))) := by
  refine ⟨fun e price => ⟨_, rfl⟩, fun candles price => ⟨?_, ?_, ?_⟩⟩
  · intro h50
    by_cases h0 : candles.length = 0
    · exact ⟨"No candle data received", by simp [get_mayer_multiple, h0]⟩
    · refine ⟨"Insufficient price data: only " ++ toString candles.length ++
        " days available", ?_⟩
      simp only [get_mayer_multiple, if_neg h0]
      rw [if_pos (by simpa using h50)]
      have hlen : (candles.reverse.map (fun c : Candle => c 4)).length =
          candles.length := by simp
      rw [hlen]
  · intro hpos h50
    have h0 : ¬ (candles.length = 0) := by omega
    simp only [get_mayer_multiple, if_neg h0]
    rw [if_pos (by simpa using h50)]
    have hlen : (candles.reverse.map (fun c : Candle => c 4)).length =
        candles.length := by simp
    rw [hlen]
  · intro h50
    have h0 : ¬ (candles.length = 0) := by omega
    simp only [get_mayer_multiple, if_neg h0]
    rw [if_neg (by simp; omega)]
    have hlen : (candles.reverse.map (fun c : Candle => c 4)).length =
        candles.length := by simp
    rw [hlen]
    have hmr : candles.reverse.map (fun c : Candle => c 4) =
        (candles.map (fun c : Candle => c 4)).reverse := by
      simp
    rw [hmr, sum_drop_reverse _ candles.length _ (by simp), ← List.map_take]

/-- Witness for C5: 50 identical candles with close 1, current price 2;
the mean is well defined and the ratio is returned. -/
theorem mayer_multiple_reversal_witness :
    50 ≤ (List.replicate 50 ((fun _ => 1) : Candle)).length ∧
    get_mayer_multiple (.data (List.replicate 50 ((fun _ => 1) : Candle))) 2 =
      .ok (2 /
        ((((List.replicate 50 ((fun _ => 1) : Candle)).take
            (min 200 (List.replicate 50 ((fun _ => 1) : Candle)).length)).map
              (fun c => c 4)).sum /
          ((min 200 (List.replicate 50 ((fun _ => 1) : Candle)).length : ℕ) : ℚ))) :=
  ⟨by simp,
    (mayer_multiple_reversal.2 (List.replicate 50 ((fun _ => 1) : Candle)) 2).2.2
      (by simp)⟩

/-- C6 counterexample: a successful fetch whose payload value is 150 is
returned as 150, outside [0, 100] — the code does not clamp a successful
fetch into the claimed range. -/
theorem fear_greed_range_counterexample :
    get_fear_greed_index (.success 150) = 150 ∧
    ¬ (get_fear_greed_index (.success 150) ≤ 100) :=
  ⟨rfl, by decide⟩

/-- C6 amended: every failure (timeout, network error, parse error, any
other exception) returns exactly the neutral 50; a successful fetch
returns the fetched integer unchanged, so it lies in [0, 100] exactly
when the feed's value does. -/
theorem fear_greed_neutral_on_failure :
    (get_fear_greed_index .timeout = 50 ∧
      (∀ m, get_fear_greed_index (.requestError m) = 50) ∧
      (∀ m, get_fear_greed_index (.parseError m) = 50) ∧
      (∀ m, get_fear_greed_index (.unexpected m) = 50)) ∧
    (∀ v, get_fear_greed_index (.success v) = v) ∧
    (∀ v, 0 ≤ v → v ≤ 100 →
      0 ≤ get_fear_greed_index (.success v) ∧
      get_fear_greed_index (.success v) ≤ 100) :=
  ⟨⟨rfl, fun _ => rfl, fun _ => rfl, fun _ => rfl⟩, fun _ => rfl,
    fun _ h0 h100 => ⟨h0, h100⟩⟩

/-- Witness for C6 (amended) at the in-range value 42. -/
theorem fear_greed_neutral_on_failure_witness :
    (0:ℤ) ≤ 42 ∧ (42:ℤ) ≤ 100 ∧
    (0 ≤ get_fear_greed_index (.success 42) ∧
      get_fear_greed_index (.success 42) ≤ 100) :=
  ⟨by decide, by decide,
    fear_greed_neutral_on_failure.2.2 42 (by decide) (by decide)⟩

/-- C7: with both `available` and `balance` present, the recorded value
comes from `available` (the `balance` value is never consulted), and a
malformed amount records the asset as 0 while parsing always continues
with the remaining items. -/
theorem balance_parsing :
    (∀ (e : BalanceEntry) (rest : List BalanceItem)
        (acc : List (String × ℚ)) (a : String) (v : Amount) (w : Option Amount),
      truthyName e.assetName = some a →
      e.available = some (some v) → e.balance = some w →
      parseBalances (.dict e :: rest) acc =
        parseBalances rest (assocSet acc a (amountVal v))) ∧
    (∀ (e : BalanceEntry) (rest : List BalanceItem)
        (acc : List (String × ℚ)) (a : String),
      truthyName e.assetName = some a →
      effectiveAmount e = some .malformed →
      parseBalances (.dict e :: rest) acc =
        parseBalances rest (assocSet acc a 0)) := by
  constructor
  · intro e rest acc a v w hname hav hbal
    simp [parseBalances, effectiveAmount, hname, hav]
  · intro e rest acc a hname heff
    simp [parseBalances, hname, heff, amountVal]

/-- Witness for C7: a malformed BTC amount is recorded as 0 and the AUD
entry after it is still parsed. -/
theorem balance_parsing_witness :
    truthyName (BalanceEntry.mk (some "BTC") (some (some .malformed))
        (some (some (.parsable 5)))).assetName = some "BTC" ∧
    effectiveAmount ⟨some "BTC", some (some .malformed),
        some (some (.parsable 5))⟩ = some .malformed ∧
    parseBalances
        [.dict ⟨some "BTC", some (some .malformed), some (some (.parsable 5))⟩,
         .dict ⟨some "AUD", some (some (.parsable 123)), none⟩] [] =
      parseBalances [.dict ⟨some "AUD", some (some (.parsable 123)), none⟩]
        (assocSet [] "BTC" 0) ∧
    parseBalances
        [.dict ⟨some "BTC", some (some .malformed), some (some (.parsable 5))⟩,
         .dict ⟨some "AUD", some (some (.parsable 123)), none⟩] [] =
      [("BTC", 0), ("AUD", 123)] :=
  ⟨rfl, rfl,
    balance_parsing.2 ⟨some "BTC", some (some .malformed), some (some (.parsable 5))⟩
      [.dict ⟨some "AUD", some (some (.parsable 123)), none⟩] [] "BTC" rfl rfl,
    rfl⟩

/-- C9: `get_account_balance` returns the empty mapping on an
error-shaped response, a non-list response, and any internal exception;
after such a failure `execute_buy_order` (invoked with a positive amount
at or above the minimum) reads the AUD balance as 0 and rejects with the
recoverable insufficient-balance outcome. -/
theorem balance_failure_recoverable :
    (get_account_balance .errorShaped = [] ∧
      get_account_balance .nonList = [] ∧
      get_account_balance .exception = []) ∧
    (∀ (minW amount : ℚ) (balResp : BalancesResp)
        (priceResp : Except String ℚ) (orderResp : Json),
      0 < amount → minW ≤ amount → get_account_balance balResp = [] →
      execute_buy_order minW amount balResp priceResp orderResp =
        .insufficientBalance 0) := by
  refine ⟨⟨rfl, rfl, rfl⟩, ?_⟩
  intro minW amount balResp priceResp orderResp hpos hmin hempty
  simp only [execute_buy_order, hempty, if_neg (not_lt.mpr hmin), List.lookup,
    Option.getD, if_pos hpos]

/-- Witness for C9: an error-shaped balances response with amount 100 at
minimum 100 is rejected as insufficient balance 0. -/
theorem balance_failure_recoverable_witness :
    (0:ℚ) < 100 ∧ (100:ℚ) ≤ 100 ∧ get_account_balance .errorShaped = [] ∧
    execute_buy_order 100 100 .errorShaped (.ok 1) .null =
      .insufficientBalance 0 :=
  ⟨by norm_num, by norm_num, rfl,
    balance_failure_recoverable.2 100 100 .errorShaped (.ok 1) .null
      (by norm_num) (by norm_num) rfl⟩

/-- The selected multiplier is never negative: it is 0 or positive. -/
theorem select_multiplier_zero_or_pos (R : ℚ) (S : ℤ) :
    (select_multiplier R S).1 = 0 ∨ 0 < (select_multiplier R S).1 := by
  unfold select_multiplier
  split_ifs <;> norm_num

/-- C10: under 0 < min ≤ max, every computed amount is 0 or at least the
minimum; hence for a positive computed amount, `execute_buy_order` never
takes the amount-below-minimum rejection branch. -/
theorem buy_amount_zero_or_above_min (cfg : BotConfig) (R : ℚ) (S : ℤ)
    (h0 : 0 < cfg.minWeekly) (hmm : cfg.minWeekly ≤ cfg.maxWeekly) :
    ((calculate_buy_amount cfg R S).1 = 0 ∨
      cfg.minWeekly ≤ (calculate_buy_amount cfg R S).1) ∧
    (0 < (calculate_buy_amount cfg R S).1 →
      ∀ (balResp : BalancesResp) (priceResp : Except String ℚ)
        (orderResp : Json),
        execute_buy_order cfg.minWeekly (calculate_buy_amount cfg R S).1
          balResp priceResp orderResp ≠ .belowMinimum) := by
  have hzm : (calculate_buy_amount cfg R S).1 = 0 ∨
      cfg.minWeekly ≤ (calculate_buy_amount cfg R S).1 := by
    rcases select_multiplier_zero_or_pos R S with hz | hp
    · left
      have hmax : (0:ℚ) ≤ cfg.maxWeekly := le_trans (le_of_lt h0) hmm
      simp only [calculate_buy_amount, hz, mul_zero, gt_iff_lt, lt_irrefl,
        if_neg]
      simp [min_eq_left hmax]
    · right
      simp only [calculate_buy_amount, gt_iff_lt, if_pos hp]
      exact le_max_right _ _
  refine ⟨hzm, fun hpos balResp priceResp orderResp => ?_⟩
  have hge : cfg.minWeekly ≤ (calculate_buy_amount cfg R S).1 := by
    rcases hzm with hz | h
    · rw [hz] at hpos
      exact absurd hpos (lt_irrefl 0)
    · exact h
  unfold execute_buy_order
  rw [if_neg (not_lt.mpr hge)]
  by_cases hb : (List.lookup "AUD" (get_account_balance balResp)).getD 0 <
      (calculate_buy_amount cfg R S).1
  · rw [if_pos hb]
    simp
  · rw [if_neg hb]
    cases priceResp with
    | error e => simp
    | ok p => by_cases ho : hasErrorShape orderResp <;> simp [ho]

/-- Witness for C10 at cfg = (500, 2000, 100), R = 0.5, S = 10: the
computed amount 2000 is positive and the below-minimum branch is not
taken. -/
theorem buy_amount_zero_or_above_min_witness :
    (0:ℚ) < 100 ∧ (100:ℚ) ≤ 2000 ∧
    ((calculate_buy_amount ⟨500, 2000, 100⟩ (1/2) 10).1 = 0 ∨
      (100:ℚ) ≤ (calculate_buy_amount ⟨500, 2000, 100⟩ (1/2) 10).1) ∧
    execute_buy_order 100 (calculate_buy_amount ⟨500, 2000, 100⟩ (1/2) 10).1
      .errorShaped (.ok 1) .null ≠ .belowMinimum :=
  ⟨by norm_num, by norm_num,
    (buy_amount_zero_or_above_min ⟨500, 2000, 100⟩ (1/2) 10
      (by norm_num) (by norm_num)).1,
    (buy_amount_zero_or_above_min ⟨500, 2000, 100⟩ (1/2) 10
      (by norm_num) (by norm_num)).2
      (by norm_num [calculate_buy_amount, select_multiplier])
      .errorShaped (.ok 1) .null⟩

/-- Witness for C1: the refinement instantiated at R = 0.75, S = 20. -/
theorem calculate_buy_amount_first_match_witness :
    select_multiplier (3/4) 20 = spec_first_match spec_rule_table (3/4) 20 :=
  calculate_buy_amount_first_match.1 (3/4) 20
